import Mathlib

/-!
Verification development for the preconditioned twisted-mass stencil
operator (include/kernels/dslash_twisted_mass_preconditioned.cuh) and the
batched sequential transform_reduce (transform_reduce.h).

Field values, gauge links and real scalars are modelled symbolically: the
external accessors (gauge field, input spinor field, ghost buffers, the
xpay field) return indexed atoms, and the arithmetic performed by the
kernels builds expression trees over those atoms.  The claims settled here
are structural claims about which values the kernels fetch and which
operations they apply in which order, so the free model is faithful: two
computations agree in the free model exactly when the kernels perform the
same fetches and apply the same operations in the same order.
-/

/-- Region classification of a dslash pass (KernelType in the QUDA dslash
helpers, external to src).  The interior pass processes bulk sites, each
single-face exterior pass processes the sites near one boundary face, and
the fused exterior pass processes every boundary face in one pass. -/
inductive KernelType
  | interiorKernel
  | exteriorKernelX
  | exteriorKernelY
  | exteriorKernelZ
  | exteriorKernelT
  | exteriorKernelAll
deriving DecidableEq

/-- Modelled from the spec: doHalo (dslash helper header, not under src).
A pass processes halo data for dimension d exactly when its region
classification covers that boundary face: the fused exterior pass covers
every face, each single-face exterior pass covers its own dimension only,
and the interior pass covers none (spec section 3, Kernel Region
Classification). -/
def doHalo (kt : KernelType) (d : Int) : Bool :=
  match kt with
  | .exteriorKernelAll => true
  | .exteriorKernelX => d == 0
  | .exteriorKernelY => d == 1
  | .exteriorKernelZ => d == 2
  | .exteriorKernelT => d == 3
  | .interiorKernel => false

/-- Modelled from the spec: doBulk (dslash helper header, not under src).
Only the interior pass processes bulk, non-boundary data (spec section 3:
INTERIOR means all neighbors local, the exterior passes process only
boundary faces). -/
def doBulk (kt : KernelType) : Bool :=
  match kt with
  | .interiorKernel => true
  | _ => false

/-- Symbolic real scalars: named atoms, negation (the TwistedMassArg
constructor negates the twist coefficient for the dagger variant) and the
literals 0 and 1 used for the xpay kappa plumbing of the base class. -/
inductive RealE
  | zeroR
  | oneR
  | varR (n : Nat)
  | neg (r : RealE)
deriving DecidableEq

/-- Symbolic spinor, half-spinor and link expressions.  Accessor fetches
are indexed atoms (uLink for arg.U, uGhost for arg.U.Ghost, inF for
arg.in, inGhost for arg.in.Ghost, xF for arg.x, fvar for values already
held by the output field) and the kernel arithmetic is represented by the
remaining constructors. -/
inductive SpinorE
  | zeroV
  | uLink (d x p : Int)
  | uGhost (d g p : Int)
  | conjL (u : SpinorE)
  | inF (i p : Int)
  | inGhost (d dir g p : Int)
  | xF (i p : Int)
  | fvar (x p : Int)
  | add (v w : SpinorE)
  | smul (r : RealE) (v : SpinorE)
  | smulI (r : RealE) (v : SpinorE)
  | gamma4 (v : SpinorE)
  | proj (d pd : Int) (v : SpinorE)
  | recon (d pd : Int) (v : SpinorE)
  | mulLV (u v : SpinorE)
deriving DecidableEq

/-- Twist rotation a * (v + i*b*gamma4(v)), the expression pattern of
source lines 69, 96 and 139. -/
def twistRot (a b : RealE) (v : SpinorE) : SpinorE :=
  .smul a (.add v (.smulI b (.gamma4 v)))

/-- Modelled from the spec: the external collaborators consumed by the
kernels (spec section 6) together with the lattice geometry fields that
the base DslashArg/WilsonArg classes (not under src) provide: the
t_proj_scale halo rescale factor, the halo depth nFace, the lattice
extents, the thread count, the neighbor-index resolver, the ghost face
indexer, the face-activity oracle, the coordinate resolver (returning the
coordinate, the checkerboard index and the thread dimension) and the
completeness predicate. -/
structure DslashExt where
  tps : RealE
  nFace : Int
  dim : Int → Int
  threads : Nat
  nbr : (Int → Int) → Int → Int → Int
  ghostFaceIdx : Nat → (Int → Int) → Int → Int
  isActiveO : KernelType → Int → Int → (Int → Int) → Bool
  coordsO : KernelType → Int → Int → ((Int → Int) × Int × Int)
  isCompleteO : KernelType → (Int → Int) → Bool

/-- Embedding of TwistedMassArg (source lines 6-24): the scale a, the
twist factor b, the asymmetric flag, plus the base-class fields (parity,
the kappa value derived from xpay, and the twist_a/twist_b members of
DslashArg). -/
structure TwistedMassArg extends DslashExt where
  a : RealE
  b : RealE
  asymmetric : Bool
  parity : Int
  kappa : RealE
  twist_a : RealE
  twist_b : RealE

/-- Embedding of the TwistedMassArg constructor (source lines 13-23): the
stored twist factor is the configured b negated exactly when dagger is
set; when the variant is dagger and not asymmetric the base-class
twist_a/twist_b fields are overwritten with the stored a and b (the base
class zero-initialises them otherwise, modelled by zeroR); the WilsonArg
base receives kappa = 1 when xpay is requested and 0 otherwise. -/
def TwistedMassArg.build (ext : DslashExt) (a b : RealE) (xpay : Bool) (parity : Int)
    (dagger asymmetric : Bool) : TwistedMassArg :=
  let b' := if dagger then RealE.neg b else b
  { toDslashExt := ext
    a := a
    b := b'
    asymmetric := asymmetric
    parity := parity
    kappa := if xpay then RealE.oneR else RealE.zeroR
    twist_a := if dagger && !asymmetric then a else RealE.zeroR
    twist_b := if dagger && !asymmetric then b' else RealE.zeroR }

/-- Modelled from the spec: isActive (dslash helper header, not under
src).  The oracle field isActiveO decides whether the currently active
region classification includes the boundary face being gathered; for the
fused exterior pass a positive answer additionally marks the calling
thread active (spec section 4.2, step 1). -/
def isActiveM (kt : KernelType) (arg : TwistedMassArg) (active : Bool)
    (thread_dim d : Int) (coord : Int → Int) : Bool × Bool :=
  let r := arg.isActiveO kt thread_dim d coord
  (r, if (kt == .exteriorKernelAll) && r then true else active)

/-- Ghost test of the forward gather (source lines 52-53): the neighbour
coordinate crosses the forward face and the pass is active for that face.
The short circuit of && means the activity test only runs when the
coordinate crosses, so the active flag is only possibly updated then.
Returns the ghost flag and the updated active flag. -/
def fwdGhost (kt : KernelType) (arg : TwistedMassArg) (active : Bool)
    (thread_dim d : Int) (coord : Int → Int) : Bool × Bool :=
  if arg.dim d ≤ coord d + arg.nFace then isActiveM kt arg active thread_dim d coord
  else (false, active)

/-- Ghost test of the backward gather (source lines 79-80). -/
def bwdGhost (kt : KernelType) (arg : TwistedMassArg) (active : Bool)
    (thread_dim d : Int) (coord : Int → Int) : Bool × Bool :=
  if coord d - arg.nFace < 0 then isActiveM kt arg active thread_dim d coord
  else (false, active)

/-- Forward gather of applyWilsonTM (source lines 49-73): halo branch
fetches the link through the ordinary accessor at the local site and the
half-projected vector from the ghost buffer (rescaled by t_proj_scale in
the time dimension), bulk branch fetches the full vector, applies the
twist pre-rotation, projects, multiplies by the link and reconstructs. -/
def fwdGatherTM (nParity : Nat) (dagger : Bool) (kt : KernelType) (arg : TwistedMassArg)
    (coord : Int → Int) (x_cb parity idx thread_dim d : Int) (st : SpinorE × Bool) :
    SpinorE × Bool :=
  let their_sp : Int := if nParity == 2 then 1 - parity else 0
  let fwd_idx := arg.nbr coord d 1
  let proj_dir : Int := if dagger then 1 else -1
  let gs := fwdGhost kt arg st.2 thread_dim d coord
  let ghost := gs.1
  let active := gs.2
  if doHalo kt d && ghost then
    let ghost_idx := if (kt == .exteriorKernelAll) && (d != thread_dim) then
      arg.ghostFaceIdx 1 coord d else idx
    let U := SpinorE.uLink d x_cb parity
    let v := SpinorE.inGhost d 1 ghost_idx their_sp
    let v := if d == 3 then SpinorE.smul arg.tps v else v
    (SpinorE.add st.1 (SpinorE.recon d proj_dir (SpinorE.mulLV U v)), active)
  else if doBulk kt && !ghost then
    let U := SpinorE.uLink d x_cb parity
    let v := SpinorE.inF fwd_idx their_sp
    let v := twistRot arg.a arg.b v
    (SpinorE.add st.1 (SpinorE.recon d proj_dir (SpinorE.mulLV U (SpinorE.proj d proj_dir v))),
      active)
  else (st.1, active)

/-- Backward gather of applyWilsonTM (source lines 75-100): halo branch
fetches the link from the halo link accessor at the face index with
opposite parity and conjugates it, bulk branch fetches link and vector at
the backward-shifted index, applies the twist pre-rotation, projects,
multiplies by the conjugated link and reconstructs. -/
def bwdGatherTM (nParity : Nat) (dagger : Bool) (kt : KernelType) (arg : TwistedMassArg)
    (coord : Int → Int) (x_cb parity idx thread_dim d : Int) (st : SpinorE × Bool) :
    SpinorE × Bool :=
  let their_sp : Int := if nParity == 2 then 1 - parity else 0
  let back_idx := arg.nbr coord d (-1)
  let gauge_idx := back_idx
  let proj_dir : Int := if dagger then -1 else 1
  let gs := bwdGhost kt arg st.2 thread_dim d coord
  let ghost := gs.1
  let active := gs.2
  if doHalo kt d && ghost then
    let ghost_idx := if (kt == .exteriorKernelAll) && (d != thread_dim) then
      arg.ghostFaceIdx 0 coord d else idx
    let U := SpinorE.uGhost d ghost_idx (1 - parity)
    let v := SpinorE.inGhost d 0 ghost_idx their_sp
    let v := if d == 3 then SpinorE.smul arg.tps v else v
    (SpinorE.add st.1 (SpinorE.recon d proj_dir (SpinorE.mulLV (SpinorE.conjL U) v)), active)
  else if doBulk kt && !ghost then
    let U := SpinorE.uLink d gauge_idx (1 - parity)
    let v := SpinorE.inF back_idx their_sp
    let v := twistRot arg.a arg.b v
    (SpinorE.add st.1
      (SpinorE.recon d proj_dir (SpinorE.mulLV (SpinorE.conjL U) (SpinorE.proj d proj_dir v))),
      active)
  else (st.1, active)

/-- Embedding of applyWilsonTM (source lines 39-103): for each of the four
dimensions, the forward gather followed by the backward gather, threading
the accumulator and the active flag. -/
def applyWilsonTM (nParity : Nat) (dagger : Bool) (kt : KernelType) (arg : TwistedMassArg)
    (coord : Int → Int) (x_cb parity idx thread_dim : Int) (st : SpinorE × Bool) :
    SpinorE × Bool :=
  (List.range 4).foldl (fun s dn =>
    let d : Int := Int.ofNat dn
    bwdGatherTM nParity dagger kt arg coord x_cb parity idx thread_dim d
      (fwdGatherTM nParity dagger kt arg coord x_cb parity idx thread_dim d s)) st

/-- Modelled from the spec: forward gather of applyWilson
(dslash_wilson.cuh, not under src).  Per spec section 4.2 step 2 the
untwisted hopping variant shares the accumulator-update contract of
applyWilsonTM; it differs only in not applying the twist pre-rotation to
the fetched bulk vector. -/
def fwdGatherW (nParity : Nat) (dagger : Bool) (kt : KernelType) (arg : TwistedMassArg)
    (coord : Int → Int) (x_cb parity idx thread_dim d : Int) (st : SpinorE × Bool) :
    SpinorE × Bool :=
  let their_sp : Int := if nParity == 2 then 1 - parity else 0
  let fwd_idx := arg.nbr coord d 1
  let proj_dir : Int := if dagger then 1 else -1
  let gs := fwdGhost kt arg st.2 thread_dim d coord
  let ghost := gs.1
  let active := gs.2
  if doHalo kt d && ghost then
    let ghost_idx := if (kt == .exteriorKernelAll) && (d != thread_dim) then
      arg.ghostFaceIdx 1 coord d else idx
    let U := SpinorE.uLink d x_cb parity
    let v := SpinorE.inGhost d 1 ghost_idx their_sp
    let v := if d == 3 then SpinorE.smul arg.tps v else v
    (SpinorE.add st.1 (SpinorE.recon d proj_dir (SpinorE.mulLV U v)), active)
  else if doBulk kt && !ghost then
    let U := SpinorE.uLink d x_cb parity
    let v := SpinorE.inF fwd_idx their_sp
    (SpinorE.add st.1 (SpinorE.recon d proj_dir (SpinorE.mulLV U (SpinorE.proj d proj_dir v))),
      active)
  else (st.1, active)

/-- Modelled from the spec: backward gather of applyWilson
(dslash_wilson.cuh, not under src), the conjugated-link mirror of
bwdGatherTM without the twist pre-rotation. -/
def bwdGatherW (nParity : Nat) (dagger : Bool) (kt : KernelType) (arg : TwistedMassArg)
    (coord : Int → Int) (x_cb parity idx thread_dim d : Int) (st : SpinorE × Bool) :
    SpinorE × Bool :=
  let their_sp : Int := if nParity == 2 then 1 - parity else 0
  let back_idx := arg.nbr coord d (-1)
  let gauge_idx := back_idx
  let proj_dir : Int := if dagger then -1 else 1
  let gs := bwdGhost kt arg st.2 thread_dim d coord
  let ghost := gs.1
  let active := gs.2
  if doHalo kt d && ghost then
    let ghost_idx := if (kt == .exteriorKernelAll) && (d != thread_dim) then
      arg.ghostFaceIdx 0 coord d else idx
    let U := SpinorE.uGhost d ghost_idx (1 - parity)
    let v := SpinorE.inGhost d 0 ghost_idx their_sp
    let v := if d == 3 then SpinorE.smul arg.tps v else v
    (SpinorE.add st.1 (SpinorE.recon d proj_dir (SpinorE.mulLV (SpinorE.conjL U) v)), active)
  else if doBulk kt && !ghost then
    let U := SpinorE.uLink d gauge_idx (1 - parity)
    let v := SpinorE.inF back_idx their_sp
    (SpinorE.add st.1
      (SpinorE.recon d proj_dir (SpinorE.mulLV (SpinorE.conjL U) (SpinorE.proj d proj_dir v))),
      active)
  else (st.1, active)

/-- Modelled from the spec: applyWilson (dslash_wilson.cuh, not under
src), the untwisted hopping term over the four dimensions. -/
def applyWilson (nParity : Nat) (dagger : Bool) (kt : KernelType) (arg : TwistedMassArg)
    (coord : Int → Int) (x_cb parity idx thread_dim : Int) (st : SpinorE × Bool) :
    SpinorE × Bool :=
  (List.range 4).foldl (fun s dn =>
    let d : Int := Int.ofNat dn
    bwdGatherW nParity dagger kt arg coord x_cb parity idx thread_dim d
      (fwdGatherW nParity dagger kt arg coord x_cb parity idx thread_dim d s)) st

/-- The output field state: the value held by the output storage at each
checkerboard index and parity. -/
abbrev OutField := Int → Int → SpinorE

/-- Gather phase of twistedMass (source lines 118-130): resolve the
coordinate, the checkerboard index and the thread dimension, initialise
the active flag (false only for the fused exterior pass), start from the
zero accumulator and run applyWilsonTM when the variant is dagger and not
asymmetric, applyWilson otherwise. -/
def gatherTM (nParity : Nat) (dagger asymmetric : Bool) (kt : KernelType)
    (arg : TwistedMassArg) (idx parity : Int) : SpinorE × Bool :=
  let active := !(kt == .exteriorKernelAll)
  let c := arg.coordsO kt idx parity
  if dagger && !asymmetric then
    applyWilsonTM nParity dagger kt arg c.1 c.2.1 parity idx c.2.2 (SpinorE.zeroV, active)
  else
    applyWilson nParity dagger kt arg c.1 c.2.1 parity idx c.2.2 (SpinorE.zeroV, active)

/-- Post-gather phase of twistedMass (source lines 132-146) applied to a
gather result: partial merge with the value already stored in the output
field (non-interior passes, active threads only), then, when the site is
complete and the thread active, the twist post-rotation (only for the
not-dagger-or-asymmetric variants) followed by the xpay addition, and
finally the conditional write-back, returning the written slot and value
or none when the fused exterior pass leaves the thread inactive. -/
def postGather (nParity : Nat) (dagger asymmetric xpay : Bool) (kt : KernelType)
    (arg : TwistedMassArg) (f : OutField) (idx parity : Int) (st : SpinorE × Bool) :
    Option (Int × Int × SpinorE) :=
  let coord := (arg.coordsO kt idx parity).1
  let x_cb := (arg.coordsO kt idx parity).2.1
  let my_sp : Int := if nParity == 2 then parity else 0
  let out := st.1
  let active := st.2
  let out := if (kt != .interiorKernel) && active then SpinorE.add out (f x_cb my_sp) else out
  let out :=
    if arg.isCompleteO kt coord && active then
      let out := if !dagger || asymmetric then twistRot arg.a arg.b out else out
      if xpay then SpinorE.add out (SpinorE.xF x_cb my_sp) else out
    else out
  if (kt != .exteriorKernelAll) || active then some (x_cb, my_sp, out) else none

/-- Embedding of twistedMass (source lines 110-147): the gather phase
followed by the post-gather phase. -/
def twistedMass (nParity : Nat) (dagger asymmetric xpay : Bool) (kt : KernelType)
    (arg : TwistedMassArg) (f : OutField) (idx parity : Int) : Option (Int × Int × SpinorE) :=
  postGather nParity dagger asymmetric xpay kt arg f idx parity
    (gatherTM nParity dagger asymmetric kt arg idx parity)

/-- The accumulator after the gather phase and the partial merge of
source lines 132-136, before the finalize step. -/
def mergedTM (nParity : Nat) (dagger asymmetric : Bool) (kt : KernelType)
    (arg : TwistedMassArg) (f : OutField) (idx parity : Int) : SpinorE :=
  let st := gatherTM nParity dagger asymmetric kt arg idx parity
  let x_cb := (arg.coordsO kt idx parity).2.1
  let my_sp : Int := if nParity == 2 then parity else 0
  if (kt != .interiorKernel) && st.2 then SpinorE.add st.1 (f x_cb my_sp) else st.1

/-- Application of one conditional site write to the output field. -/
def applyWrite (f : OutField) : Option (Int × Int × SpinorE) → OutField
  | none => f
  | some w => fun x p => if x = w.1 ∧ p = w.2.1 then w.2.2 else f x p

/-- Embedding of twistedMassCPU (source lines 150-163): iterate the
parities (the loop parity for full fields, the configured parity
otherwise) and within each parity all checkerboard indices in ascending
order, applying each write to the output field as it is produced. -/
def twistedMassCPU (nParity : Nat) (dagger asymmetric xpay : Bool) (kt : KernelType)
    (arg : TwistedMassArg) (f0 : OutField) : OutField :=
  (List.range nParity).foldl
    (fun f pl =>
      let parity : Int := if nParity == 2 then Int.ofNat pl else arg.parity
      (List.range arg.threads).foldl
        (fun g x_cb =>
          applyWrite g
            (twistedMass nParity dagger asymmetric xpay kt arg g (Int.ofNat x_cb) parity)) f)
    f0

/-- Embedding of the twistedMassGPU kernel body (source lines 166-180) for
one thread with checkerboard coordinate x_cb and parity-axis coordinate z:
threads beyond the site count return immediately, the parity is the z
coordinate for full fields and the configured parity otherwise, and the
switch dispatches only the parity values 0 and 1. -/
def twistedMassGPU (nParity : Nat) (dagger asymmetric xpay : Bool) (kt : KernelType)
    (arg : TwistedMassArg) (f : OutField) (x_cb z : Int) : Option (Int × Int × SpinorE) :=
  if (arg.threads : Int) ≤ x_cb then none
  else
    let parity : Int := if nParity == 2 then z else arg.parity
    if parity = 0 then twistedMass nParity dagger asymmetric xpay kt arg f x_cb 0
    else if parity = 1 then twistedMass nParity dagger asymmetric xpay kt arg f x_cb 1
    else none

/-- The parallel dispatch: a grid of gridX threads along the site axis
(the launch covers at least all sites) and nParity threads along the
parity axis, each running the kernel body once.  Each thread reads and
writes only its own output slot, so the grid traversal order cannot be
observed; the model fixes one order to express the resulting field. -/
def twistedMassGPUgrid (nParity : Nat) (dagger asymmetric xpay : Bool) (kt : KernelType)
    (gridX : Nat) (arg : TwistedMassArg) (f0 : OutField) : OutField :=
  (List.range nParity).foldl
    (fun f z =>
      (List.range gridX).foldl
        (fun g x_cb =>
          applyWrite g
            (twistedMassGPU nParity dagger asymmetric xpay kt arg g (Int.ofNat x_cb)
              (Int.ofNat z))) f)
    f0

/-- The fixed compile-time batch maximum n_batch_max of TransformReduceArg
(transform_reduce.h line 37). -/
def n_batch_max : Nat := 8

/-- Embedding of TransformReduceArg (transform_reduce.h lines 34-56): the
item count, the batch count, the initial value, the batch data (the
n_batch_max pointer slots, a slot beyond the copied batches holding the
default junk value of an uninitialised pointer), the transformer and the
reducer. -/
structure TransformReduceArg (α β : Type) where
  n_items : Nat
  n_batch : Nat
  init : β
  v : Nat → Nat → α
  h : α → β
  r : β → β → β

/-- Message of the fatal batch-count error raised by the
TransformReduceArg constructor (transform_reduce.h line 53). -/
def batchErrorMsg : String := "Requested batch greater than max supported"

/-- Embedding of the TransformReduceArg constructor (transform_reduce.h
lines 45-55): when the requested batch count exceeds n_batch_max the
construction aborts with the fatal errorQuda call before anything is
copied (modelled as Except.error); otherwise every batch pointer is
copied into the bundle. -/
def mkTransformReduceArg {α β : Type} [Inhabited α] (v : List (Nat → α)) (n_items : Nat)
    (h : α → β) (init : β) (r : β → β → β) : Except String (TransformReduceArg α β) :=
  if n_batch_max < v.length then Except.error batchErrorMsg
  else Except.ok
    { n_items := n_items
      n_batch := v.length
      init := init
      v := fun j => v.getD j (fun _ => default)
      h := h
      r := r }

/-- Ascending loop i = 0, 1, ..., n-1 threading an accumulator, the shape
of the inner loop of the sequential transform_reduce. -/
def iterUp {β : Type} (f : Nat → β → β) : Nat → β → β
  | 0, acc => acc
  | n + 1, acc => f n (iterUp f n acc)

/-- Embedding of the sequential transform_reduce (transform_reduce.h lines
58-72): for every batch j the accumulator starts from init and the loop
over the items applies the transformer and folds with the reducer in
ascending index order; the list collects result[j] for j < n_batch. -/
def transform_reduce {α β : Type} (arg : TransformReduceArg α β) : List β :=
  (List.range arg.n_batch).map (fun j =>
    iterUp (fun i acc => arg.r acc (arg.h (arg.v j i))) arg.n_items arg.init)

/-- Concrete external-collaborator bundle used by witnesses: the activity
oracle always answers true, the coordinate resolver returns the zero
coordinate with x_cb equal to the linear index, and the completeness
predicate always answers true. -/
def cExt : DslashExt :=
  { tps := RealE.varR 7
    nFace := 1
    dim := fun _ => 4
    threads := 2
    nbr := fun _ d dir => d + dir
    ghostFaceIdx := fun s _ d => d + (s : Int)
    isActiveO := fun _ _ _ _ => true
    coordsO := fun _ idx _ => (fun _ => 0, idx, 0)
    isCompleteO := fun _ _ => true }

/-- Concrete argument bundle for witnesses: built by the embedded
constructor with symbolic scalars. -/
def cArg : TwistedMassArg :=
  TwistedMassArg.build cExt (RealE.varR 1) (RealE.varR 2) false 0 false false

/-- Concrete external bundle whose lattice extent is 1 with halo depth 1,
so that at the zero coordinate both the forward and the backward gather
cross a boundary face; used by halo-branch witnesses. -/
def cExtHalo : DslashExt :=
  { cExt with dim := fun _ => 1, coordsO := fun _ idx _ => (fun _ => 0, idx, 0) }

/-- Concrete argument bundle over cExtHalo. -/
def cArgHalo : TwistedMassArg :=
  TwistedMassArg.build cExtHalo (RealE.varR 1) (RealE.varR 2) false 0 false false

/-- Concrete initial output field made of distinct atoms. -/
def cField : OutField := fun x p => SpinorE.fvar x p

/-- Concrete batch list with nine pointers, exceeding n_batch_max. -/
def vNine : List (Nat → Nat) := List.replicate 9 (fun _ => 0)

/-- Concrete batch list with two pointers. -/
def vTwo : List (Nat → Nat) := [fun i => i + 3, fun i => 2 * i]

/-- Concrete transform-reduce argument bundle used by witnesses. -/
def cTR : TransformReduceArg Nat Nat :=
  { n_items := 3
    n_batch := 2
    init := 5
    v := fun j i => 10 * j + i
    h := fun x => x + 1
    r := fun x y => x * y }

/-- Size of the twist rotation is strictly larger than the size of the
rotated vector, so the rotation never fixes an expression. -/
theorem twistRot_ne (a b : RealE) (v : SpinorE) : twistRot a b v ≠ v := by
  intro h
  have hs := congrArg sizeOf h
  simp [twistRot] at hs
  omega

/-- C6: the twist scalar stored by the argument-bundle constructor is the
configured twist coefficient negated exactly when the adjoint (dagger)
variant is requested, and the other configured scalars are stored
unchanged; the bundle is a value, so no later computation can mutate it. -/
theorem claimC6_theorem (ext : DslashExt) (a b : RealE) (xpay : Bool) (parity : Int)
    (dagger asymmetric : Bool) :
    (TwistedMassArg.build ext a b xpay parity dagger asymmetric).b
        = (if dagger then RealE.neg b else b) ∧
      (TwistedMassArg.build ext a b xpay parity dagger asymmetric).a = a ∧
      (TwistedMassArg.build ext a b xpay parity dagger asymmetric).asymmetric = asymmetric :=
  ⟨rfl, rfl, rfl⟩

/-- C9: a batch count above the compile-time maximum makes the
argument-bundle construction fail with the fatal error before any batch
pointer is copied, so no partial bundle exists; a batch count at or below
the maximum is accepted and every batch pointer is copied into the
bundle. -/
theorem claimC9_theorem {α β : Type} [Inhabited α] (v : List (Nat → α)) (n_items : Nat)
    (h : α → β) (init : β) (r : β → β → β) :
    (n_batch_max < v.length →
      mkTransformReduceArg v n_items h init r = Except.error batchErrorMsg) ∧
    (v.length ≤ n_batch_max →
      ∃ arg, mkTransformReduceArg v n_items h init r = Except.ok arg ∧
        arg.n_batch = v.length ∧
        ∀ j, (hj : j < v.length) → arg.v j = v.get ⟨j, hj⟩) := by
  constructor
  · intro hgt
    simp [mkTransformReduceArg, hgt]
  · intro hle
    refine ⟨⟨n_items, v.length, init, fun j => v.getD j (fun _ => default), h, r⟩, ?_, rfl, ?_⟩
    · simp [mkTransformReduceArg, Nat.not_lt.mpr hle]
    · intro j hj
      simp [List.getD, List.getElem?_eq_getElem hj, List.get_eq_getElem]

/-- C9 witness: nine batches are rejected, two batches are accepted with
both pointers copied. -/
theorem claimC9_witness :
    (mkTransformReduceArg vNine 3 (fun a => a + 1) 0 (fun x y => x + y)
        = Except.error batchErrorMsg) ∧
    (∃ arg, mkTransformReduceArg vTwo 3 (fun a => a + 1) 0 (fun x y => x + y)
        = Except.ok arg ∧ arg.n_batch = vTwo.length ∧
        ∀ j, (hj : j < vTwo.length) → arg.v j = vTwo.get ⟨j, hj⟩) :=
  ⟨(claimC9_theorem vNine 3 _ 0 _).1 (by simp [vNine, n_batch_max]),
   (claimC9_theorem vTwo 3 _ 0 _).2 (by simp [vTwo, n_batch_max])⟩

/-- Loop characterization: the ascending accumulator loop is the left
fold over the ascending index list. -/
theorem iterUp_eq_foldl {β : Type} (f : Nat → β → β) (n : Nat) (acc : β) :
    iterUp f n acc = (List.range n).foldl (fun a i => f i a) acc := by
  induction n with
  | zero => rfl
  | succ n ih => simp [iterUp, List.range_succ, ih]

/-- C10: the sequential transform_reduce produces one result per batch;
result j is the left fold of the reducer over the transformed elements of
batch j in ascending index order starting from init (so it depends on no
other batch), and an empty item range yields exactly init. -/
theorem claimC10_theorem {α β : Type} (arg : TransformReduceArg α β) (j : Nat)
    (hj : j < arg.n_batch) :
    (transform_reduce arg).length = arg.n_batch ∧
    (transform_reduce arg).getD j arg.init
      = List.foldl (fun acc x => arg.r acc (arg.h x)) arg.init
          ((List.range arg.n_items).map (fun i => arg.v j i)) ∧
    (arg.n_items = 0 → (transform_reduce arg).getD j arg.init = arg.init) := by
  have hlen : (transform_reduce arg).length = arg.n_batch := by
    simp [transform_reduce]
  have hval : (transform_reduce arg).getD j arg.init
      = iterUp (fun i acc => arg.r acc (arg.h (arg.v j i))) arg.n_items arg.init := by
    rw [List.getD_eq_getElem _ _ (by omega : j < (transform_reduce arg).length)]
    simp [transform_reduce]
  refine ⟨hlen, ?_, ?_⟩
  · rw [hval, iterUp_eq_foldl, List.foldl_map]
  · intro h0
    rw [hval, h0]
    rfl

/-- C10 witness: the concrete bundle evaluates to the fold value on batch
one. -/
theorem claimC10_witness :
    (transform_reduce cTR).length = cTR.n_batch ∧
    (transform_reduce cTR).getD 1 cTR.init
      = List.foldl (fun acc x => cTR.r acc (cTR.h x)) cTR.init
          ((List.range cTR.n_items).map (fun i => cTR.v 1 i)) ∧
    (cTR.n_items = 0 → (transform_reduce cTR).getD 1 cTR.init = cTR.init) :=
  claimC10_theorem cTR 1 (by decide)

/-- C1 counterexample: in the single-face exterior pass for the X face,
a forward gather in dimension 1 whose neighbour coordinate crosses the
active boundary face (ghost is true) takes neither the halo path nor the
bulk path: the accumulator is returned unchanged, refuting the
never-neither part of the claim. -/
theorem claimC1_counterexample :
    (fwdGhost .exteriorKernelX cArg true 0 1 (fun _ => 3)).1 = true ∧
    (fwdGatherTM 2 false .exteriorKernelX cArg (fun _ => 3) 0 0 0 0 1
        (SpinorE.fvar 0 0, true)).1 = SpinorE.fvar 0 0 := by
  decide

/-- C1 (amended): for every site, dimension and gather direction at most
one of the halo path and the bulk path is taken, never both; the halo
path is taken exactly when the gather is ghost and the region
classification processes halo data for that dimension, and the bulk path
exactly when the gather is not ghost and the classification processes
bulk data; when neither guard holds (for example a boundary-crossing
gather during the interior pass, or an off-dimension gather during a
single-face exterior pass) the accumulator is left unchanged in that
pass. -/
theorem claimC1_theorem (nParity : Nat) (dagger : Bool) (kt : KernelType)
    (arg : TwistedMassArg) (coord : Int → Int) (x_cb parity idx thread_dim d : Int)
    (st : SpinorE × Bool) :
    (¬((doHalo kt d && (fwdGhost kt arg st.2 thread_dim d coord).1) = true ∧
        (doBulk kt && !(fwdGhost kt arg st.2 thread_dim d coord).1) = true)) ∧
    (fwdGatherTM nParity dagger kt arg coord x_cb parity idx thread_dim d st).1
      = (if doHalo kt d && (fwdGhost kt arg st.2 thread_dim d coord).1 then
           SpinorE.add st.1
             (SpinorE.recon d (if dagger then 1 else -1)
               (SpinorE.mulLV (SpinorE.uLink d x_cb parity)
                 (if d == 3 then
                    SpinorE.smul arg.tps
                      (SpinorE.inGhost d 1
                        (if (kt == .exteriorKernelAll) && (d != thread_dim) then
                          arg.ghostFaceIdx 1 coord d else idx)
                        (if nParity == 2 then 1 - parity else 0))
                  else
                    SpinorE.inGhost d 1
                      (if (kt == .exteriorKernelAll) && (d != thread_dim) then
                        arg.ghostFaceIdx 1 coord d else idx)
                      (if nParity == 2 then 1 - parity else 0))))
         else if doBulk kt && !(fwdGhost kt arg st.2 thread_dim d coord).1 then
           SpinorE.add st.1
             (SpinorE.recon d (if dagger then 1 else -1)
               (SpinorE.mulLV (SpinorE.uLink d x_cb parity)
                 (SpinorE.proj d (if dagger then 1 else -1)
                   (twistRot arg.a arg.b
                     (SpinorE.inF (arg.nbr coord d 1)
                       (if nParity == 2 then 1 - parity else 0))))))
         else st.1) ∧
    (¬((doHalo kt d && (bwdGhost kt arg st.2 thread_dim d coord).1) = true ∧
        (doBulk kt && !(bwdGhost kt arg st.2 thread_dim d coord).1) = true)) ∧
    (bwdGatherTM nParity dagger kt arg coord x_cb parity idx thread_dim d st).1
      = (if doHalo kt d && (bwdGhost kt arg st.2 thread_dim d coord).1 then
           SpinorE.add st.1
             (SpinorE.recon d (if dagger then -1 else 1)
               (SpinorE.mulLV
                 (SpinorE.conjL
                   (SpinorE.uGhost d
                     (if (kt == .exteriorKernelAll) && (d != thread_dim) then
                       arg.ghostFaceIdx 0 coord d else idx)
                     (1 - parity)))
                 (if d == 3 then
                    SpinorE.smul arg.tps
                      (SpinorE.inGhost d 0
                        (if (kt == .exteriorKernelAll) && (d != thread_dim) then
                          arg.ghostFaceIdx 0 coord d else idx)
                        (if nParity == 2 then 1 - parity else 0))
                  else
                    SpinorE.inGhost d 0
                      (if (kt == .exteriorKernelAll) && (d != thread_dim) then
                        arg.ghostFaceIdx 0 coord d else idx)
                      (if nParity == 2 then 1 - parity else 0))))
         else if doBulk kt && !(bwdGhost kt arg st.2 thread_dim d coord).1 then
           SpinorE.add st.1
             (SpinorE.recon d (if dagger then -1 else 1)
               (SpinorE.mulLV (SpinorE.conjL (SpinorE.uLink d (arg.nbr coord d (-1)) (1 - parity)))
                 (SpinorE.proj d (if dagger then -1 else 1)
                   (twistRot arg.a arg.b
                     (SpinorE.inF (arg.nbr coord d (-1))
                       (if nParity == 2 then 1 - parity else 0))))))
         else st.1) := by
  refine ⟨?_, ?_, ?_, ?_⟩
  · rintro ⟨h1, h2⟩
    rw [Bool.and_eq_true] at h1 h2
    rw [h1.2] at h2
    exact absurd h2.2 (by simp)
  · cases hg : (fwdGhost kt arg st.2 thread_dim d coord).1 <;>
      cases hh : doHalo kt d <;> cases hb : doBulk kt <;>
        simp [fwdGatherTM, hg, hh, hb]
  · rintro ⟨h1, h2⟩
    rw [Bool.and_eq_true] at h1 h2
    rw [h1.2] at h2
    exact absurd h2.2 (by simp)
  · cases hg : (bwdGhost kt arg st.2 thread_dim d coord).1 <;>
      cases hh : doHalo kt d <;> cases hb : doBulk kt <;>
        simp [bwdGatherTM, hg, hh, hb]

/-- C3: in the bulk branch of applyWilsonTM (a pass that processes bulk
data, gather not ghost), for both directions the full input vector is
fetched through the ordinary accessor and first transformed by the twist
pre-rotation a * (v + i*b*gamma4(v)), and only then projected, multiplied
by the link matrix (the conjugate-transposed link at the backward-shifted
gauge index for the backward gather), reconstructed and added into the
accumulator. -/
theorem claimC3_theorem (nParity : Nat) (dagger : Bool) (kt : KernelType)
    (arg : TwistedMassArg) (coord : Int → Int) (x_cb parity idx thread_dim d : Int)
    (st : SpinorE × Bool) (hk : doBulk kt = true)
    (hf : coord d + arg.nFace < arg.dim d) (hb : 0 ≤ coord d - arg.nFace) :
    fwdGatherTM nParity dagger kt arg coord x_cb parity idx thread_dim d st
      = (SpinorE.add st.1
          (SpinorE.recon d (if dagger then 1 else -1)
            (SpinorE.mulLV (SpinorE.uLink d x_cb parity)
              (SpinorE.proj d (if dagger then 1 else -1)
                (twistRot arg.a arg.b
                  (SpinorE.inF (arg.nbr coord d 1)
                    (if nParity == 2 then 1 - parity else 0)))))), st.2) ∧
    bwdGatherTM nParity dagger kt arg coord x_cb parity idx thread_dim d st
      = (SpinorE.add st.1
          (SpinorE.recon d (if dagger then -1 else 1)
            (SpinorE.mulLV (SpinorE.conjL (SpinorE.uLink d (arg.nbr coord d (-1)) (1 - parity)))
              (SpinorE.proj d (if dagger then -1 else 1)
                (twistRot arg.a arg.b
                  (SpinorE.inF (arg.nbr coord d (-1))
                    (if nParity == 2 then 1 - parity else 0)))))), st.2) := by
  have hf' : ¬(arg.dim d ≤ coord d + arg.nFace) := by omega
  have hb' : ¬(coord d - arg.nFace < 0) := by omega
  constructor
  · simp [fwdGatherTM, fwdGhost, hf', hk]
  · simp [bwdGatherTM, bwdGhost, hb', hk]

/-- C3 witness: the bulk characterization evaluated in the interior pass
at a concrete non-boundary coordinate. -/
theorem claimC3_witness :
    (doBulk .interiorKernel = true ∧ (1 : Int) + cArg.nFace < cArg.dim 1 ∧
      (0 : Int) ≤ 1 - cArg.nFace) ∧
    (fwdGatherTM 2 false .interiorKernel cArg (fun _ => 1) 5 0 9 0 1
        (SpinorE.fvar 0 0, true)
      = (SpinorE.add (SpinorE.fvar 0 0)
          (SpinorE.recon 1 (-1)
            (SpinorE.mulLV (SpinorE.uLink 1 5 0)
              (SpinorE.proj 1 (-1)
                (twistRot cArg.a cArg.b
                  (SpinorE.inF (cArg.nbr (fun _ => 1) 1 1) 1))))), true) ∧
    bwdGatherTM 2 false .interiorKernel cArg (fun _ => 1) 5 0 9 0 1
        (SpinorE.fvar 0 0, true)
      = (SpinorE.add (SpinorE.fvar 0 0)
          (SpinorE.recon 1 1
            (SpinorE.mulLV (SpinorE.conjL (SpinorE.uLink 1 (cArg.nbr (fun _ => 1) 1 (-1)) 1))
              (SpinorE.proj 1 1
                (twistRot cArg.a cArg.b
                  (SpinorE.inF (cArg.nbr (fun _ => 1) 1 (-1)) 1))))), true)) := by
  refine ⟨by decide, ?_⟩
  have h := claimC3_theorem 2 false .interiorKernel cArg (fun _ => 1) 5 0 9 0 1
    (SpinorE.fvar 0 0, true) (by decide) (by decide) (by decide)
  simpa using h

/-- C4 counterexample: in a ghost forward gather the claim predicts the
link matrix is fetched from the halo-indexed link accessor, but the code
fetches it through the ordinary accessor at the local site index: at a
concrete input the gather result differs from the claimed shape and
equals the ordinary-accessor shape. -/
theorem claimC4_counterexample :
    (fwdGhost .exteriorKernelX cArg true 0 0 (fun _ => 3)).1 = true ∧
    (fwdGatherTM 2 false .exteriorKernelX cArg (fun _ => 3) 0 0 5 0 0
        (SpinorE.zeroV, true)).1
      ≠ SpinorE.add SpinorE.zeroV
          (SpinorE.recon 0 (-1)
            (SpinorE.mulLV (SpinorE.uGhost 0 5 0) (SpinorE.inGhost 0 1 5 1))) ∧
    (fwdGatherTM 2 false .exteriorKernelX cArg (fun _ => 3) 0 0 5 0 0
        (SpinorE.zeroV, true)).1
      = SpinorE.add SpinorE.zeroV
          (SpinorE.recon 0 (-1)
            (SpinorE.mulLV (SpinorE.uLink 0 0 0) (SpinorE.inGhost 0 1 5 1))) := by
  decide

/-- C4 (amended): in the halo branch of applyWilsonTM the half-projected
input vector is fetched from the halo field accessor in both directions,
and multiplied by the halo rescaling factor t_proj_scale exactly when the
dimension is the time dimension, before the link-times-vector product is
reconstructed and added into the accumulator; the link matrix, however,
is fetched from the halo-indexed link accessor (at the face index, with
opposite parity, conjugated) only for the backward gather, while the
forward gather fetches it through the ordinary link accessor at the
local site index. -/
theorem claimC4_theorem (nParity : Nat) (dagger : Bool) (kt : KernelType)
    (arg : TwistedMassArg) (coord : Int → Int) (x_cb parity idx thread_dim d : Int)
    (st : SpinorE × Bool) (hdh : doHalo kt d = true)
    (hcf : arg.dim d ≤ coord d + arg.nFace) (hcb : coord d - arg.nFace < 0)
    (ha : arg.isActiveO kt thread_dim d coord = true) :
    fwdGatherTM nParity dagger kt arg coord x_cb parity idx thread_dim d st
      = (SpinorE.add st.1
          (SpinorE.recon d (if dagger then 1 else -1)
            (SpinorE.mulLV (SpinorE.uLink d x_cb parity)
              (if d == 3 then
                 SpinorE.smul arg.tps
                   (SpinorE.inGhost d 1
                     (if (kt == .exteriorKernelAll) && (d != thread_dim) then
                       arg.ghostFaceIdx 1 coord d else idx)
                     (if nParity == 2 then 1 - parity else 0))
               else
                 SpinorE.inGhost d 1
                   (if (kt == .exteriorKernelAll) && (d != thread_dim) then
                     arg.ghostFaceIdx 1 coord d else idx)
                   (if nParity == 2 then 1 - parity else 0)))),
         if kt == .exteriorKernelAll then true else st.2) ∧
    bwdGatherTM nParity dagger kt arg coord x_cb parity idx thread_dim d st
      = (SpinorE.add st.1
          (SpinorE.recon d (if dagger then -1 else 1)
            (SpinorE.mulLV
              (SpinorE.conjL
                (SpinorE.uGhost d
                  (if (kt == .exteriorKernelAll) && (d != thread_dim) then
                    arg.ghostFaceIdx 0 coord d else idx)
                  (1 - parity)))
              (if d == 3 then
                 SpinorE.smul arg.tps
                   (SpinorE.inGhost d 0
                     (if (kt == .exteriorKernelAll) && (d != thread_dim) then
                       arg.ghostFaceIdx 0 coord d else idx)
                     (if nParity == 2 then 1 - parity else 0))
               else
                 SpinorE.inGhost d 0
                   (if (kt == .exteriorKernelAll) && (d != thread_dim) then
                     arg.ghostFaceIdx 0 coord d else idx)
                   (if nParity == 2 then 1 - parity else 0)))),
         if kt == .exteriorKernelAll then true else st.2) := by
  have hcb' : coord d - arg.nFace < 0 := hcb
  constructor
  · simp [fwdGatherTM, fwdGhost, isActiveM, hdh, ha, hcf]
  · simp [bwdGatherTM, bwdGhost, isActiveM, hdh, ha, hcb']

/-- C4 witness: the amended halo characterization evaluated in the fused
exterior pass for a dimension other than the thread dimension, on the
one-site lattice where both directions are ghost. -/
theorem claimC4_witness :
    (doHalo .exteriorKernelAll 2 = true ∧
      cArgHalo.dim 2 ≤ (0 : Int) + cArgHalo.nFace ∧ (0 : Int) - cArgHalo.nFace < 0 ∧
      cArgHalo.isActiveO .exteriorKernelAll 3 2 (fun _ => 0) = true) ∧
    (fwdGatherTM 2 true .exteriorKernelAll cArgHalo (fun _ => 0) 4 1 6 3 2
        (SpinorE.fvar 1 1, false)
      = (SpinorE.add (SpinorE.fvar 1 1)
          (SpinorE.recon 2 1
            (SpinorE.mulLV (SpinorE.uLink 2 4 1)
              (SpinorE.inGhost 2 1 (cArgHalo.ghostFaceIdx 1 (fun _ => 0) 2) 0))), true) ∧
    bwdGatherTM 2 true .exteriorKernelAll cArgHalo (fun _ => 0) 4 1 6 3 2
        (SpinorE.fvar 1 1, false)
      = (SpinorE.add (SpinorE.fvar 1 1)
          (SpinorE.recon 2 (-1)
            (SpinorE.mulLV
              (SpinorE.conjL (SpinorE.uGhost 2 (cArgHalo.ghostFaceIdx 0 (fun _ => 0) 2) 0))
              (SpinorE.inGhost 2 0 (cArgHalo.ghostFaceIdx 0 (fun _ => 0) 2) 0))), true)) := by
  refine ⟨by decide, ?_⟩
  have h := claimC4_theorem 2 true .exteriorKernelAll cArgHalo (fun _ => 0) 4 1 6 3 2
    (SpinorE.fvar 1 1, false) (by decide) (by decide) (by decide) (by decide)
  simpa using h

/-- C2: when the completeness predicate holds at the site's coordinate
and the thread is active after the gather, the written value is the
merged accumulator with the twist post-rotation a * (v + i*b*gamma4(v))
applied exactly when the variant is not-dagger-or-asymmetric (the
equality with the rotated form holds if and only if that condition does),
and with the pass-through field value added on top exactly when xpay is
enabled; when completeness-and-active fails, the merged accumulator is
written (or, in the fused pass with an inactive thread, nothing), with
neither the rotation nor the xpay addition applied. -/
theorem claimC2_theorem (nParity : Nat) (dagger asymmetric xpay : Bool) (kt : KernelType)
    (arg : TwistedMassArg) (f : OutField) (idx parity : Int) :
    (arg.isCompleteO kt (arg.coordsO kt idx parity).1 = true →
      (gatherTM nParity dagger asymmetric kt arg idx parity).2 = true →
      twistedMass nParity dagger asymmetric xpay kt arg f idx parity
        = some ((arg.coordsO kt idx parity).2.1, if nParity == 2 then parity else 0,
            if xpay then
              SpinorE.add
                (if !dagger || asymmetric then
                  twistRot arg.a arg.b (mergedTM nParity dagger asymmetric kt arg f idx parity)
                else mergedTM nParity dagger asymmetric kt arg f idx parity)
                (SpinorE.xF (arg.coordsO kt idx parity).2.1 (if nParity == 2 then parity else 0))
            else
              if !dagger || asymmetric then
                twistRot arg.a arg.b (mergedTM nParity dagger asymmetric kt arg f idx parity)
              else mergedTM nParity dagger asymmetric kt arg f idx parity) ∧
      ((if !dagger || asymmetric then
          twistRot arg.a arg.b (mergedTM nParity dagger asymmetric kt arg f idx parity)
        else mergedTM nParity dagger asymmetric kt arg f idx parity)
          = twistRot arg.a arg.b (mergedTM nParity dagger asymmetric kt arg f idx parity)
        ↔ (!dagger || asymmetric) = true)) ∧
    (¬(arg.isCompleteO kt (arg.coordsO kt idx parity).1 = true ∧
        (gatherTM nParity dagger asymmetric kt arg idx parity).2 = true) →
      twistedMass nParity dagger asymmetric xpay kt arg f idx parity
        = (if (kt != .exteriorKernelAll) || (gatherTM nParity dagger asymmetric kt arg idx parity).2
            then some ((arg.coordsO kt idx parity).2.1, if nParity == 2 then parity else 0,
                mergedTM nParity dagger asymmetric kt arg f idx parity)
            else none)) := by
  constructor
  · intro hc hact
    constructor
    · rw [twistedMass, postGather, mergedTM]
      rw [hc, hact]
      simp
    · constructor
      · intro heq
        by_contra hcond
        rw [Bool.not_eq_true] at hcond
        rw [hcond] at heq
        exact twistRot_ne arg.a arg.b _ heq.symm
      · intro hcond
        rw [hcond]
        simp
  · intro hn
    rw [twistedMass, postGather, mergedTM]
    cases hc : arg.isCompleteO kt (arg.coordsO kt idx parity).1 <;>
      cases hact : (gatherTM nParity dagger asymmetric kt arg idx parity).2 <;>
        simp_all

/-- C2 witness: the finalize characterization evaluated in the interior
pass for the dagger non-asymmetric xpay variant at a concrete site. -/
theorem claimC2_witness :
    twistedMass 2 true false true .interiorKernel cArg cField 0 0
      = some ((cArg.coordsO .interiorKernel 0 0).2.1, (if (2 : Nat) == 2 then (0 : Int) else 0),
          if true then
            SpinorE.add
              (if !true || false then
                twistRot cArg.a cArg.b (mergedTM 2 true false .interiorKernel cArg cField 0 0)
              else mergedTM 2 true false .interiorKernel cArg cField 0 0)
              (SpinorE.xF (cArg.coordsO .interiorKernel 0 0).2.1
                (if (2 : Nat) == 2 then (0 : Int) else 0))
          else
            if !true || false then
              twistRot cArg.a cArg.b (mergedTM 2 true false .interiorKernel cArg cField 0 0)
            else mergedTM 2 true false .interiorKernel cArg cField 0 0) ∧
      ((if !true || false then
          twistRot cArg.a cArg.b (mergedTM 2 true false .interiorKernel cArg cField 0 0)
        else mergedTM 2 true false .interiorKernel cArg cField 0 0)
          = twistRot cArg.a cArg.b (mergedTM 2 true false .interiorKernel cArg cField 0 0)
        ↔ (!true || false) = true) :=
  (claimC2_theorem 2 true false true .interiorKernel cArg cField 0 0).1 (by decide) (by decide)

/-- C5: the gather phase of twistedMass runs the twist-premultiplied
hopping term applyWilsonTM exactly when the variant is dagger and not
asymmetric, and the plain untwisted hopping term applyWilson in every
other variant combination; both are launched from the same zero
accumulator and initial active flag and both feed the identical
post-gather pipeline (partial merge, finalize, write-back), so they
update the accumulator under the same contract. -/
theorem claimC5_theorem (nParity : Nat) (dagger asymmetric xpay : Bool) (kt : KernelType)
    (arg : TwistedMassArg) (f : OutField) (idx parity : Int) :
    ((dagger && !asymmetric) = true →
      twistedMass nParity dagger asymmetric xpay kt arg f idx parity
        = postGather nParity dagger asymmetric xpay kt arg f idx parity
            (applyWilsonTM nParity dagger kt arg (arg.coordsO kt idx parity).1
              (arg.coordsO kt idx parity).2.1 parity idx (arg.coordsO kt idx parity).2.2
              (SpinorE.zeroV, !(kt == .exteriorKernelAll)))) ∧
    ((dagger && !asymmetric) = false →
      twistedMass nParity dagger asymmetric xpay kt arg f idx parity
        = postGather nParity dagger asymmetric xpay kt arg f idx parity
            (applyWilson nParity dagger kt arg (arg.coordsO kt idx parity).1
              (arg.coordsO kt idx parity).2.1 parity idx (arg.coordsO kt idx parity).2.2
              (SpinorE.zeroV, !(kt == .exteriorKernelAll)))) := by
  constructor
  · intro hd
    rw [twistedMass, gatherTM]
    simp [hd]
  · intro hd
    rw [twistedMass, gatherTM]
    simp [hd]

/-- C5 witness: the dispatch evaluated for the dagger non-asymmetric
variant (twist-premultiplied hopping) and for the plain variant. -/
theorem claimC5_witness :
    (twistedMass 2 true false false .interiorKernel cArg cField 0 0
      = postGather 2 true false false .interiorKernel cArg cField 0 0
          (applyWilsonTM 2 true .interiorKernel cArg (cArg.coordsO .interiorKernel 0 0).1
            (cArg.coordsO .interiorKernel 0 0).2.1 0 0 (cArg.coordsO .interiorKernel 0 0).2.2
            (SpinorE.zeroV, !(KernelType.interiorKernel == .exteriorKernelAll)))) ∧
    (twistedMass 2 false false false .interiorKernel cArg cField 0 0
      = postGather 2 false false false .interiorKernel cArg cField 0 0
          (applyWilson 2 false .interiorKernel cArg (cArg.coordsO .interiorKernel 0 0).1
            (cArg.coordsO .interiorKernel 0 0).2.1 0 0 (cArg.coordsO .interiorKernel 0 0).2.2
            (SpinorE.zeroV, !(KernelType.interiorKernel == .exteriorKernelAll)))) :=
  ⟨(claimC5_theorem 2 true false false .interiorKernel cArg cField 0 0).1 rfl,
   (claimC5_theorem 2 false false false .interiorKernel cArg cField 0 0).2 rfl⟩

/-- Fold congruence: two folds over the same list agree when the step
functions agree on every list element. -/
theorem foldl_congr_mem {α β : Type} (l : List α) (f g : β → α → β) (b : β)
    (h : ∀ acc x, x ∈ l → f acc x = g acc x) : l.foldl f b = l.foldl g b := by
  induction l generalizing b with
  | nil => rfl
  | cons a l ih =>
    simp only [List.foldl_cons]
    rw [h b a (by simp)]
    exact ih _ (fun acc x hx => h acc x (by simp [hx]))

/-- A fold whose step is the identity on every list element is the
identity. -/
theorem foldl_id_of_mem {α β : Type} (l : List α) (step : β → α → β) (b : β)
    (h : ∀ x ∈ l, ∀ c, step c x = c) : l.foldl step b = b := by
  induction l generalizing b with
  | nil => rfl
  | cons a l ih =>
    simp only [List.foldl_cons]
    rw [h a (by simp) b]
    exact ih _ (fun x hx c => h x (by simp [hx]) c)

/-- A fold over an index range whose step is the identity beyond a bound
equals the fold over the bounded range. -/
theorem foldl_range_guard {β : Type} (T g : Nat) (hTg : T ≤ g) (step : β → Nat → β) (b : β)
    (h : ∀ c x, T ≤ x → step c x = c) :
    (List.range g).foldl step b = (List.range T).foldl step b := by
  obtain ⟨k, rfl⟩ := Nat.exists_eq_add_of_le hTg
  rw [List.range_add, List.foldl_append]
  exact foldl_id_of_mem _ _ _ (by
    intro x hx c
    simp only [List.mem_map, List.mem_range] at hx
    obtain ⟨y, _, rfl⟩ := hx
    exact h c (T + y) (Nat.le_add_right T y))

/-- C8: the sequential dispatch wrapper and the parallel dispatch wrapper
produce identical output fields for the same argument bundle and initial
output state, for every lattice size (thread count, with any covering
grid) and for both parity configurations (full field nParity = 2, or
single parity nParity = 1 with a valid configured parity); each computes
the same per-(site, parity) result through the shared twistedMass
routine. -/
theorem claimC8_theorem (dagger asymmetric xpay : Bool) (kt : KernelType)
    (nParity gridX : Nat) (arg : TwistedMassArg) (f0 : OutField)
    (hN : nParity = 1 ∨ nParity = 2) (hg : arg.threads ≤ gridX)
    (hp : nParity = 1 → arg.parity = 0 ∨ arg.parity = 1) :
    twistedMassCPU nParity dagger asymmetric xpay kt arg f0
      = twistedMassGPUgrid nParity dagger asymmetric xpay kt gridX arg f0 := by
  have hrange2 : List.range 2 = [0, 1] := rfl
  have hrange1 : List.range 1 = [0] := rfl
  rcases hN with h1 | h2
  · subst h1
    rcases hp rfl with hpar | hpar <;>
    · rw [twistedMassCPU, twistedMassGPUgrid, hrange1]
      simp only [List.foldl_cons, List.foldl_nil]
      rw [foldl_range_guard arg.threads gridX hg _ _ (by
        intro c x hx
        simp [twistedMassGPU, hx, applyWrite])]
      refine foldl_congr_mem _ _ _ _ ?_
      intro acc x hx
      rw [List.mem_range] at hx
      have hC : ¬(arg.threads ≤ x) := Nat.not_le.mpr hx
      simp [twistedMassGPU, hC, hpar]
  · subst h2
    rw [twistedMassCPU, twistedMassGPUgrid, hrange2]
    simp only [List.foldl_cons, List.foldl_nil]
    have inner : ∀ z : Nat, z = 0 ∨ z = 1 → ∀ f : OutField,
        (List.range arg.threads).foldl
          (fun g x_cb =>
            applyWrite g
              (twistedMass 2 dagger asymmetric xpay kt arg g (Int.ofNat x_cb)
                (if (2 : Nat) == 2 then Int.ofNat z else arg.parity))) f
          = (List.range gridX).foldl
            (fun g x_cb =>
              applyWrite g
                (twistedMassGPU 2 dagger asymmetric xpay kt arg g (Int.ofNat x_cb)
                  (Int.ofNat z))) f := by
      intro z hz f
      rw [foldl_range_guard arg.threads gridX hg _ _ (by
        intro c x hx
        simp [twistedMassGPU, hx, applyWrite])]
      refine foldl_congr_mem _ _ _ _ ?_
      intro acc x hx
      rw [List.mem_range] at hx
      have hC : ¬(arg.threads ≤ x) := Nat.not_le.mpr hx
      rcases hz with rfl | rfl <;> simp [twistedMassGPU, hC]
    rw [inner 0 (Or.inl rfl) f0, inner 1 (Or.inr rfl)]

/-- C8 witness: the two wrappers evaluated on the concrete bundle agree
as fields at every slot of the two-site, two-parity lattice. -/
theorem claimC8_witness :
    twistedMassCPU 2 true false true .interiorKernel cArg cField
      = twistedMassGPUgrid 2 true false true .interiorKernel 3 cArg cField :=
  claimC8_theorem true false true .interiorKernel 2 3 cArg cField (Or.inr rfl)
    (by decide) (by simp)

/-- The ghost tests never change the active flag outside the fused
exterior pass (forward direction, interior pass). -/
theorem fwdGhost_active_int (arg : TwistedMassArg) (a : Bool) (td d : Int)
    (c : Int → Int) : (fwdGhost .interiorKernel arg a td d c).2 = a := by
  rw [fwdGhost]
  split <;> simp [isActiveM]

/-- The ghost tests never change the active flag outside the fused
exterior pass (backward direction, interior pass). -/
theorem bwdGhost_active_int (arg : TwistedMassArg) (a : Bool) (td d : Int)
    (c : Int → Int) : (bwdGhost .interiorKernel arg a td d c).2 = a := by
  rw [bwdGhost]
  split <;> simp [isActiveM]

/-- The forward twisted gather preserves the active flag in the interior
pass. -/
theorem fwdGatherTM_active_int (nParity : Nat) (dagger : Bool) (arg : TwistedMassArg)
    (coord : Int → Int) (x_cb parity idx thread_dim d : Int) (st : SpinorE × Bool) :
    (fwdGatherTM nParity dagger .interiorKernel arg coord x_cb parity idx thread_dim d st).2
      = st.2 := by
  simp only [fwdGatherTM]
  split
  · exact fwdGhost_active_int arg st.2 thread_dim d coord
  · split
    · exact fwdGhost_active_int arg st.2 thread_dim d coord
    · exact fwdGhost_active_int arg st.2 thread_dim d coord

/-- The backward twisted gather preserves the active flag in the
interior pass. -/
theorem bwdGatherTM_active_int (nParity : Nat) (dagger : Bool) (arg : TwistedMassArg)
    (coord : Int → Int) (x_cb parity idx thread_dim d : Int) (st : SpinorE × Bool) :
    (bwdGatherTM nParity dagger .interiorKernel arg coord x_cb parity idx thread_dim d st).2
      = st.2 := by
  simp only [bwdGatherTM]
  split
  · exact bwdGhost_active_int arg st.2 thread_dim d coord
  · split
    · exact bwdGhost_active_int arg st.2 thread_dim d coord
    · exact bwdGhost_active_int arg st.2 thread_dim d coord

/-- The forward Wilson gather preserves the active flag in the interior
pass. -/
theorem fwdGatherW_active_int (nParity : Nat) (dagger : Bool) (arg : TwistedMassArg)
    (coord : Int → Int) (x_cb parity idx thread_dim d : Int) (st : SpinorE × Bool) :
    (fwdGatherW nParity dagger .interiorKernel arg coord x_cb parity idx thread_dim d st).2
      = st.2 := by
  simp only [fwdGatherW]
  split
  · exact fwdGhost_active_int arg st.2 thread_dim d coord
  · split
    · exact fwdGhost_active_int arg st.2 thread_dim d coord
    · exact fwdGhost_active_int arg st.2 thread_dim d coord

/-- The backward Wilson gather preserves the active flag in the interior
pass. -/
theorem bwdGatherW_active_int (nParity : Nat) (dagger : Bool) (arg : TwistedMassArg)
    (coord : Int → Int) (x_cb parity idx thread_dim d : Int) (st : SpinorE × Bool) :
    (bwdGatherW nParity dagger .interiorKernel arg coord x_cb parity idx thread_dim d st).2
      = st.2 := by
  simp only [bwdGatherW]
  split
  · exact bwdGhost_active_int arg st.2 thread_dim d coord
  · split
    · exact bwdGhost_active_int arg st.2 thread_dim d coord
    · exact bwdGhost_active_int arg st.2 thread_dim d coord

/-- The twisted hopping term preserves the active flag in the interior
pass. -/
theorem applyWilsonTM_active_int (nParity : Nat) (dagger : Bool) (arg : TwistedMassArg)
    (coord : Int → Int) (x_cb parity idx thread_dim : Int) (st : SpinorE × Bool) :
    (applyWilsonTM nParity dagger .interiorKernel arg coord x_cb parity idx thread_dim st).2
      = st.2 := by
  have hstep : ∀ d (s : SpinorE × Bool),
      (bwdGatherTM nParity dagger .interiorKernel arg coord x_cb parity idx thread_dim d
        (fwdGatherTM nParity dagger .interiorKernel arg coord x_cb parity idx thread_dim d s)).2
        = s.2 := by
    intro d s
    rw [bwdGatherTM_active_int, fwdGatherTM_active_int]
  show (List.foldl _ st (List.range 4)).2 = st.2
  rw [show List.range 4 = [0, 1, 2, 3] from rfl]
  simp only [List.foldl_cons, List.foldl_nil]
  rw [hstep, hstep, hstep, hstep]

/-- The Wilson hopping term preserves the active flag in the interior
pass. -/
theorem applyWilson_active_int (nParity : Nat) (dagger : Bool) (arg : TwistedMassArg)
    (coord : Int → Int) (x_cb parity idx thread_dim : Int) (st : SpinorE × Bool) :
    (applyWilson nParity dagger .interiorKernel arg coord x_cb parity idx thread_dim st).2
      = st.2 := by
  have hstep : ∀ d (s : SpinorE × Bool),
      (bwdGatherW nParity dagger .interiorKernel arg coord x_cb parity idx thread_dim d
        (fwdGatherW nParity dagger .interiorKernel arg coord x_cb parity idx thread_dim d s)).2
        = s.2 := by
    intro d s
    rw [bwdGatherW_active_int, fwdGatherW_active_int]
  show (List.foldl _ st (List.range 4)).2 = st.2
  rw [show List.range 4 = [0, 1, 2, 3] from rfl]
  simp only [List.foldl_cons, List.foldl_nil]
  rw [hstep, hstep, hstep, hstep]

/-- Every thread of the interior pass ends the gather phase active. -/
theorem gatherTM_active_int (nParity : Nat) (dagger asymmetric : Bool)
    (arg : TwistedMassArg) (idx parity : Int) :
    (gatherTM nParity dagger asymmetric .interiorKernel arg idx parity).2 = true := by
  rw [gatherTM]
  split
  · rw [applyWilsonTM_active_int]
    rfl
  · rw [applyWilson_active_int]
    rfl

/-- Per-site xpay shape in the interior pass: when every coordinate is
complete and the resolver returns the site index as checkerboard index,
the xpay run writes exactly the no-xpay value plus the pass-through atom,
at the same slot; the written value does not depend on the current output
field because the interior pass skips the partial merge. -/
theorem tm_int_shape (dagger asymmetric : Bool) (arg : TwistedMassArg)
    (fx fn : OutField) (idx parity : Int)
    (hcomp : ∀ c, arg.isCompleteO .interiorKernel c = true)
    (hco : (arg.coordsO .interiorKernel idx parity).2.1 = idx) :
    ∃ v, twistedMass 2 dagger asymmetric false .interiorKernel arg fn idx parity
        = some (idx, parity, v) ∧
      twistedMass 2 dagger asymmetric true .interiorKernel arg fx idx parity
        = some (idx, parity, SpinorE.add v (SpinorE.xF idx parity)) := by
  refine ⟨if !dagger || asymmetric then
      twistRot arg.a arg.b (gatherTM 2 dagger asymmetric .interiorKernel arg idx parity).1
    else (gatherTM 2 dagger asymmetric .interiorKernel arg idx parity).1, ?_, ?_⟩ <;>
    simp [twistedMass, postGather, hcomp, hco, gatherTM_active_int]

/-- One parity sweep of the sequential wrapper in the interior pass,
compared between the xpay run and the no-xpay run: the sweep turns every
swept slot into the no-xpay value plus the pass-through atom, keeps the
relation everywhere, and leaves slots of other parities untouched. -/
theorem c7_inner (dagger asymmetric : Bool) (arg : TwistedMassArg)
    (hcomp : ∀ c, arg.isCompleteO .interiorKernel c = true)
    (hco : ∀ idx parity, (arg.coordsO .interiorKernel idx parity).2.1 = idx)
    (p : Int) (n : Nat) (fx fn : OutField)
    (hrel : ∀ x q, fx x q = fn x q ∨ fx x q = SpinorE.add (fn x q) (SpinorE.xF x q)) :
    (∀ x q,
      (List.range n).foldl (fun g m => applyWrite g
        (twistedMass 2 dagger asymmetric true .interiorKernel arg g (Int.ofNat m) p)) fx x q
        = (List.range n).foldl (fun g m => applyWrite g
            (twistedMass 2 dagger asymmetric false .interiorKernel arg g (Int.ofNat m) p)) fn x q
      ∨ (List.range n).foldl (fun g m => applyWrite g
          (twistedMass 2 dagger asymmetric true .interiorKernel arg g (Int.ofNat m) p)) fx x q
          = SpinorE.add
              ((List.range n).foldl (fun g m => applyWrite g
                (twistedMass 2 dagger asymmetric false .interiorKernel arg g (Int.ofNat m) p))
                fn x q)
              (SpinorE.xF x q)) ∧
    (∀ m : Nat, m < n →
      (List.range n).foldl (fun g m => applyWrite g
        (twistedMass 2 dagger asymmetric true .interiorKernel arg g (Int.ofNat m) p)) fx
          (Int.ofNat m) p
        = SpinorE.add
            ((List.range n).foldl (fun g m => applyWrite g
              (twistedMass 2 dagger asymmetric false .interiorKernel arg g (Int.ofNat m) p)) fn
              (Int.ofNat m) p)
            (SpinorE.xF (Int.ofNat m) p)) ∧
    (∀ x q, q ≠ p →
      (List.range n).foldl (fun g m => applyWrite g
        (twistedMass 2 dagger asymmetric true .interiorKernel arg g (Int.ofNat m) p)) fx x q
        = fx x q ∧
      (List.range n).foldl (fun g m => applyWrite g
        (twistedMass 2 dagger asymmetric false .interiorKernel arg g (Int.ofNat m) p)) fn x q
        = fn x q) := by
  induction n with
  | zero =>
    refine ⟨fun x q => hrel x q, fun m hm => absurd hm (by omega), fun x q _ => ⟨rfl, rfl⟩⟩
  | succ n ih =>
    obtain ⟨R1, R2, R3⟩ := ih
    simp only [List.range_succ, List.foldl_append, List.foldl_cons, List.foldl_nil]
    obtain ⟨v, hvn, hvx⟩ := tm_int_shape dagger asymmetric arg
      ((List.range n).foldl (fun g m => applyWrite g
        (twistedMass 2 dagger asymmetric true .interiorKernel arg g (Int.ofNat m) p)) fx)
      ((List.range n).foldl (fun g m => applyWrite g
        (twistedMass 2 dagger asymmetric false .interiorKernel arg g (Int.ofNat m) p)) fn)
      (Int.ofNat n) p hcomp (hco _ _)
    rw [hvn, hvx]
    refine ⟨?_, ?_, ?_⟩
    · intro x q
      by_cases hxq : x = Int.ofNat n ∧ q = p
      · right
        obtain ⟨rfl, rfl⟩ := hxq
        simp [applyWrite]
      · simp only [applyWrite, hxq, if_false]
        exact R1 x q
    · intro m hm
      rcases Nat.lt_succ_iff_lt_or_eq.mp hm with hm' | rfl
      · have hne : Int.ofNat m ≠ Int.ofNat n := by
          simp only [Int.ofNat_eq_natCast, ne_eq, Nat.cast_inj]
          omega
        simp only [applyWrite]
        rw [if_neg (fun hcon => hne hcon.1), if_neg (fun hcon => hne hcon.1)]
        exact R2 m hm'
      · simp [applyWrite]
    · intro x q hq
      simp only [applyWrite]
      rw [if_neg (fun hcon => hq hcon.2), if_neg (fun hcon => hq hcon.2)]
      exact R3 x q hq

/-- C7: for every argument bundle whose completeness predicate holds
everywhere (a single complete interior pass, the single-partition
setting in which the operator finalizes every site in one pass) and
whose coordinate resolver returns the site index, the full-field output
of the sequential wrapper with pass-through accumulation enabled equals
the output with pass-through disabled plus the pass-through field value,
at every site and for both parities. -/
theorem claimC7_theorem (dagger asymmetric : Bool) (arg : TwistedMassArg) (f0 : OutField)
    (hcomp : ∀ c, arg.isCompleteO .interiorKernel c = true)
    (hco : ∀ idx parity, (arg.coordsO .interiorKernel idx parity).2.1 = idx) :
    ∀ x : Nat, x < arg.threads → ∀ p : Int, p = 0 ∨ p = 1 →
      twistedMassCPU 2 dagger asymmetric true .interiorKernel arg f0 (Int.ofNat x) p
        = SpinorE.add
            (twistedMassCPU 2 dagger asymmetric false .interiorKernel arg f0 (Int.ofNat x) p)
            (SpinorE.xF (Int.ofNat x) p) := by
  intro x hx p hp
  have hcpu : ∀ xp : Bool, twistedMassCPU 2 dagger asymmetric xp .interiorKernel arg f0
      = (List.range arg.threads).foldl (fun g m => applyWrite g
          (twistedMass 2 dagger asymmetric xp .interiorKernel arg g (Int.ofNat m)
            (Int.ofNat 1)))
          ((List.range arg.threads).foldl (fun g m => applyWrite g
            (twistedMass 2 dagger asymmetric xp .interiorKernel arg g (Int.ofNat m)
              (Int.ofNat 0))) f0) := by
    intro xp
    rw [twistedMassCPU, show List.range 2 = [0, 1] from rfl]
    simp only [List.foldl_cons, List.foldl_nil]
    rfl
  obtain ⟨R1, R2, R3⟩ := c7_inner dagger asymmetric arg hcomp hco (Int.ofNat 0)
    arg.threads f0 f0 (fun _ _ => Or.inl rfl)
  obtain ⟨S1, S2, S3⟩ := c7_inner dagger asymmetric arg hcomp hco (Int.ofNat 1)
    arg.threads
    ((List.range arg.threads).foldl (fun g m => applyWrite g
      (twistedMass 2 dagger asymmetric true .interiorKernel arg g (Int.ofNat m)
        (Int.ofNat 0))) f0)
    ((List.range arg.threads).foldl (fun g m => applyWrite g
      (twistedMass 2 dagger asymmetric false .interiorKernel arg g (Int.ofNat m)
        (Int.ofNat 0))) f0)
    R1
  rw [hcpu true, hcpu false]
  rcases hp with rfl | rfl
  · have hfr := S3 (Int.ofNat x) 0 (by decide)
    rw [hfr.1, hfr.2]
    exact R2 x hx
  · exact S2 x hx

/-- C7 witness: evaluated on the concrete bundle (complete everywhere,
identity coordinate resolver) at site 1, parity 1. -/
theorem claimC7_witness :
    twistedMassCPU 2 true false true .interiorKernel cArg cField (Int.ofNat 1) 1
      = SpinorE.add
          (twistedMassCPU 2 true false false .interiorKernel cArg cField (Int.ofNat 1) 1)
          (SpinorE.xF (Int.ofNat 1) 1) :=
  claimC7_theorem true false cArg cField (fun _ => rfl) (fun _ _ => rfl) 1 (by decide)
    1 (Or.inr rfl)

/-- C1 witness: the never-both conjunct of the amended claim evaluated
at a concrete interior-pass gather. -/
theorem claimC1_witness :
    ¬((doHalo .interiorKernel 1 && (fwdGhost .interiorKernel cArg true 0 1 (fun _ => 1)).1)
        = true ∧
      (doBulk .interiorKernel && !(fwdGhost .interiorKernel cArg true 0 1 (fun _ => 1)).1)
        = true) :=
  (claimC1_theorem 2 false .interiorKernel cArg (fun _ => 1) 0 0 0 0 1
    (SpinorE.fvar 0 0, true)).1
